import Mathlib

/-!
Verification of the `home_assistant_tts` repository.

The development shallowly embeds the two Python source files:

* `ha_tts_adapter/tts.py` — a Home Assistant TTS provider that forwards a
  message to a remote synthesis server over HTTP (an async variant using
  aiohttp and a blocking variant using requests).
* `tts_server.py` — a Flask endpoint `/synthesize/<path:text>` that decodes
  the percent-encoded text, normalizes it with RUAccent, synthesizes audio
  with a TeraTTS model, transcodes WAV to MP3 with an ffmpeg subprocess, and
  cleans up the temporary files.

Pure text manipulation (Python `urllib.parse.quote(…, safe="")` and
`urllib.parse.unquote`, including the UTF-8 codec with the `replace` error
handler used by `unquote`) is embedded as executable Lean functions on
strings and byte lists.  Effectful parts (the HTTP transport, the TTS model,
the accentizer, the ffmpeg subprocess, the filesystem) are embedded as
explicit outcome parameters / state passing, so every handler path of the
source is a branch of a total Lean function.
-/

/-! ## UTF-8 codec (as used by Python `str.encode('utf-8')` and
`bytes.decode('utf-8', errors='replace')`) -/

/-- UTF-8 encoding of a single Unicode scalar value (code point `n`),
as a list of byte values. -/
def utf8EncodeChar (n : Nat) : List Nat :=
  if n < 0x80 then [n]
  else if n < 0x800 then [0xC0 + n / 0x40, 0x80 + n % 0x40]
  else if n < 0x10000 then
    [0xE0 + n / 0x1000, 0x80 + n / 0x40 % 0x40, 0x80 + n % 0x40]
  else
    [0xF0 + n / 0x40000, 0x80 + n / 0x1000 % 0x40, 0x80 + n / 0x40 % 0x40,
      0x80 + n % 0x40]

/-- UTF-8 encoding of a string of characters (Python `s.encode('utf-8')`). -/
def utf8Encode : List Char → List Nat
  | [] => []
  | c :: cs => utf8EncodeChar c.toNat ++ utf8Encode cs

/-- Lower bound for the second byte of a 3- or 4-byte UTF-8 sequence headed
by `b0` (rules out overlong forms and code points above U+10FFFF). -/
def utf8Cont2Lo (b0 : Nat) : Nat :=
  if b0 = 0xE0 then 0xA0 else if b0 = 0xF0 then 0x90 else 0x80

/-- Upper bound for the second byte of a 3- or 4-byte UTF-8 sequence headed
by `b0` (rules out surrogates and code points above U+10FFFF). -/
def utf8Cont2Hi (b0 : Nat) : Nat :=
  if b0 = 0xED then 0x9F else if b0 = 0xF4 then 0x8F else 0xBF

/-- UTF-8 decoding with the `replace` error handler (Python
`bytes.decode('utf-8', errors='replace')`): a maximal valid subpart of an
ill-formed sequence is replaced by a single U+FFFD and decoding resumes at
the next byte.  Returns the list of decoded code points. -/
def utf8DecodeReplace : List Nat → List Nat
  | [] => []
  | b0 :: rest =>
    if b0 < 0x80 then b0 :: utf8DecodeReplace rest
    else if b0 < 0xC2 then 0xFFFD :: utf8DecodeReplace rest
    else if b0 < 0xE0 then
      match rest with
      | b1 :: rest1 =>
        if 0x80 ≤ b1 ∧ b1 < 0xC0 then
          ((b0 - 0xC0) * 0x40 + (b1 - 0x80)) :: utf8DecodeReplace rest1
        else 0xFFFD :: utf8DecodeReplace (b1 :: rest1)
      | [] => [0xFFFD]
    else if b0 < 0xF5 then
      match rest with
      | b1 :: rest1 =>
        if utf8Cont2Lo b0 ≤ b1 ∧ b1 ≤ utf8Cont2Hi b0 then
          if b0 < 0xF0 then
            match rest1 with
            | b2 :: rest2 =>
              if 0x80 ≤ b2 ∧ b2 < 0xC0 then
                ((b0 - 0xE0) * 0x1000 + (b1 - 0x80) * 0x40 + (b2 - 0x80)) ::
                  utf8DecodeReplace rest2
              else 0xFFFD :: utf8DecodeReplace (b2 :: rest2)
            | [] => [0xFFFD]
          else
            match rest1 with
            | b2 :: rest2 =>
              if 0x80 ≤ b2 ∧ b2 < 0xC0 then
                match rest2 with
                | b3 :: rest3 =>
                  if 0x80 ≤ b3 ∧ b3 < 0xC0 then
                    ((b0 - 0xF0) * 0x40000 + (b1 - 0x80) * 0x1000 +
                      (b2 - 0x80) * 0x40 + (b3 - 0x80)) ::
                      utf8DecodeReplace rest3
                  else 0xFFFD :: utf8DecodeReplace (b3 :: rest3)
                | [] => [0xFFFD]
              else 0xFFFD :: utf8DecodeReplace (b2 :: rest2)
            | [] => [0xFFFD]
        else 0xFFFD :: utf8DecodeReplace (b1 :: rest1)
      | [] => [0xFFFD]
    else 0xFFFD :: utf8DecodeReplace rest

/-! ## Percent-encoding (Python `urllib.parse.quote` / `unquote`) -/

/-- The bytes Python `urllib.parse.quote` never escapes (`_ALWAYS_SAFE`:
ASCII letters, digits, and `_.-~`).  The adapter calls `quote(message,
safe="")`, so no further byte is safe. -/
def alwaysSafe (b : Nat) : Bool :=
  (0x41 ≤ b && b ≤ 0x5A) || (0x61 ≤ b && b ≤ 0x7A) ||
    (0x30 ≤ b && b ≤ 0x39) || b == 0x5F || b == 0x2E || b == 0x2D || b == 0x7E

/-- Uppercase hexadecimal digit for `k < 16`, as emitted by `quote`. -/
def hexUpper (k : Nat) : Char :=
  Char.ofNat (if k < 10 then 0x30 + k else 0x37 + k)

/-- Is `c` an ASCII hex digit (either case), as accepted by `unquote`'s
`_hextobyte` table. -/
def isHexDigitCh (c : Char) : Bool :=
  (0x30 ≤ c.toNat && c.toNat ≤ 0x39) || (0x41 ≤ c.toNat && c.toNat ≤ 0x46) ||
    (0x61 ≤ c.toNat && c.toNat ≤ 0x66)

/-- Numeric value of an ASCII hex digit. -/
def hexVal (c : Char) : Nat :=
  if c.toNat ≤ 0x39 then c.toNat - 0x30
  else if c.toNat ≤ 0x46 then c.toNat - 0x37
  else c.toNat - 0x57

/-- Percent-escape a list of bytes: a safe byte stays a literal character,
any other byte becomes `%XX` with uppercase hex. -/
def quoteBytes : List Nat → List Char
  | [] => []
  | b :: bs =>
    (if alwaysSafe b then [Char.ofNat b]
     else ['%', hexUpper (b / 16), hexUpper (b % 16)]) ++ quoteBytes bs

/-- Python `urllib.parse.quote(s, safe="")`: UTF-8 encode the whole string,
then percent-escape every byte outside `_ALWAYS_SAFE`. -/
def pyQuote (s : String) : String :=
  String.mk (quoteBytes (utf8Encode s.toList))

/-- Scanner for Python `urllib.parse.unquote(s)` (defaults
`encoding='utf-8', errors='replace'`): within a maximal ASCII run, `%XX`
with two hex digits contributes the byte `XX`, an invalid escape and any
literal ASCII character contribute their own byte, and the run's byte
buffer `buf` is decoded as UTF-8 in one piece; a non-ASCII character flushes
the buffer and passes through unchanged.  Returns decoded code points. -/
def unquoteCore : Nat → List Char → List Nat → List Nat
  | 0, _, buf => utf8DecodeReplace buf
  | _ + 1, [], buf => utf8DecodeReplace buf
  | fuel + 1, c :: rest, buf =>
    if c = '%' then
      match rest with
      | c1 :: c2 :: rest2 =>
        if isHexDigitCh c1 && isHexDigitCh c2 then
          unquoteCore fuel rest2 (buf ++ [16 * hexVal c1 + hexVal c2])
        else unquoteCore fuel (c1 :: c2 :: rest2) (buf ++ [0x25])
      | _ => unquoteCore fuel rest (buf ++ [0x25])
    else if c.toNat < 0x80 then unquoteCore fuel rest (buf ++ [c.toNat])
    else utf8DecodeReplace buf ++ c.toNat :: unquoteCore fuel rest []

/-- Python `urllib.parse.unquote(s)` as used by the endpoint.  The fuel
argument of the scanner is the input length: every step consumes at least
one character per fuel unit, so the fuel never runs out. -/
def pyUnquote (s : String) : String :=
  String.mk ((unquoteCore s.toList.length s.toList []).map Char.ofNat)

/-! ### Supporting lemmas for the codec -/

theorem char_toNat_ofNat_of_lt {n : Nat} (h : n < 0xD800) :
    (Char.ofNat n).toNat = n := by
  have hv : n.isValidChar := Or.inl h
  simp [Char.ofNat, hv, Char.ofNatAux, Char.toNat, UInt32.toNat,
    BitVec.toNat_ofNatLt]

theorem char_toNat_valid (c : Char) :
    c.toNat < 0xD800 ∨ (0xDFFF < c.toNat ∧ c.toNat < 0x110000) := by
  have h := c.valid
  unfold UInt32.isValidChar Nat.isValidChar at h
  simpa [Char.toNat] using h

/-- Decoding inverts encoding, one scalar value at a time. -/
theorem utf8DecodeReplace_encodeChar (n : Nat)
    (hv : n < 0xD800 ∨ (0xDFFF < n ∧ n < 0x110000)) (bs : List Nat) :
    utf8DecodeReplace (utf8EncodeChar n ++ bs) = n :: utf8DecodeReplace bs := by
  by_cases h1 : n < 0x80
  · simp only [utf8EncodeChar, if_pos h1, List.cons_append, List.nil_append]
    rw [utf8DecodeReplace.eq_def]
    dsimp only
    rw [if_pos h1]
  · by_cases h2 : n < 0x800
    · simp only [utf8EncodeChar, if_neg h1, if_pos h2, List.cons_append,
        List.nil_append]
      rw [utf8DecodeReplace.eq_def]
      dsimp only
      rw [if_neg (by omega), if_neg (by omega), if_pos (by omega)]
      rw [if_pos (by omega)]
      have : (0xC0 + n / 0x40 - 0xC0) * 0x40 + (0x80 + n % 0x40 - 0x80) = n := by
        omega
      rw [this]
    · by_cases h3 : n < 0x10000
      · simp only [utf8EncodeChar, if_neg h1, if_neg h2, if_pos h3,
          List.cons_append, List.nil_append]
        rw [utf8DecodeReplace.eq_def]
        dsimp only
        rw [if_neg (by omega), if_neg (by omega), if_neg (by omega),
          if_pos (by omega)]
        have hlo : utf8Cont2Lo (0xE0 + n / 0x1000) ≤ 0x80 + n / 0x40 % 0x40 := by
          unfold utf8Cont2Lo
          by_cases he : 0xE0 + n / 0x1000 = 0xE0
          · rw [if_pos he]; omega
          · rw [if_neg he, if_neg (by omega)]; omega
        have hhi : 0x80 + n / 0x40 % 0x40 ≤ utf8Cont2Hi (0xE0 + n / 0x1000) := by
          unfold utf8Cont2Hi
          by_cases he : 0xE0 + n / 0x1000 = 0xED
          · rw [if_pos he]; omega
          · rw [if_neg he, if_neg (by omega)]; omega
        rw [if_pos ⟨hlo, hhi⟩, if_pos (by omega), if_pos (by omega)]
        have : (0xE0 + n / 0x1000 - 0xE0) * 0x1000 +
            (0x80 + n / 0x40 % 0x40 - 0x80) * 0x40 + (0x80 + n % 0x40 - 0x80)
            = n := by omega
        rw [this]
      · have h4 : n < 0x110000 := by omega
        simp only [utf8EncodeChar, if_neg h1, if_neg h2, if_neg h3,
          List.cons_append, List.nil_append]
        rw [utf8DecodeReplace.eq_def]
        dsimp only
        rw [if_neg (by omega), if_neg (by omega), if_neg (by omega),
          if_pos (by omega)]
        have hlo : utf8Cont2Lo (0xF0 + n / 0x40000) ≤ 0x80 + n / 0x1000 % 0x40 := by
          unfold utf8Cont2Lo
          rw [if_neg (by omega)]
          by_cases he : 0xF0 + n / 0x40000 = 0xF0
          · rw [if_pos he]; omega
          · rw [if_neg he]; omega
        have hhi : 0x80 + n / 0x1000 % 0x40 ≤ utf8Cont2Hi (0xF0 + n / 0x40000) := by
          unfold utf8Cont2Hi
          rw [if_neg (by omega)]
          by_cases he : 0xF0 + n / 0x40000 = 0xF4
          · rw [if_pos he]; omega
          · rw [if_neg he]; omega
        rw [if_pos ⟨hlo, hhi⟩, if_neg (by omega), if_pos (by omega),
          if_pos (by omega)]
        have : (0xF0 + n / 0x40000 - 0xF0) * 0x40000 +
            (0x80 + n / 0x1000 % 0x40 - 0x80) * 0x1000 +
            (0x80 + n / 0x40 % 0x40 - 0x80) * 0x40 + (0x80 + n % 0x40 - 0x80)
            = n := by omega
        rw [this]

/-- Decoding inverts encoding on whole strings. -/
theorem utf8DecodeReplace_utf8Encode (cs : List Char) :
    utf8DecodeReplace (utf8Encode cs) = cs.map Char.toNat := by
  induction cs with
  | nil => rfl
  | cons c cs ih =>
    rw [utf8Encode, utf8DecodeReplace_encodeChar c.toNat (char_toNat_valid c), ih]
    rfl

theorem char_toNat_ofNat_valid {n : Nat} (h : n.isValidChar) :
    (Char.ofNat n).toNat = n := by
  simp [Char.ofNat, h, Char.ofNatAux, Char.toNat, UInt32.toNat,
    BitVec.toNat_ofNatLt]

theorem alwaysSafe_lt {b : Nat} (h : alwaysSafe b = true) :
    b < 0x80 ∧ b ≠ 0x25 := by
  simp only [alwaysSafe, Bool.or_eq_true, Bool.and_eq_true,
    decide_eq_true_eq, beq_iff_eq] at h
  omega

theorem hexUpper_toNat {k : Nat} (h : k < 16) :
    (hexUpper k).toNat = if k < 10 then 0x30 + k else 0x37 + k := by
  unfold hexUpper
  exact char_toNat_ofNat_of_lt (by split <;> omega)

theorem isHexDigitCh_hexUpper {k : Nat} (h : k < 16) :
    isHexDigitCh (hexUpper k) = true := by
  simp only [isHexDigitCh, hexUpper_toNat h, Bool.or_eq_true, Bool.and_eq_true,
    decide_eq_true_eq]
  split <;> omega

theorem hexVal_hexUpper {k : Nat} (h : k < 16) : hexVal (hexUpper k) = k := by
  simp only [hexVal, hexUpper_toNat h]
  by_cases h10 : k < 10
  · rw [if_pos h10, if_pos (by omega)]; omega
  · rw [if_neg h10, if_neg (by omega), if_pos (by omega)]; omega

/-- The scanner applied to percent-escaped bytes appends exactly those bytes
to the run buffer: `unquote` undoes `quoteBytes`. -/
theorem unquoteCore_quoteBytes (bs : List Nat) (hb : ∀ b ∈ bs, b < 256) :
    ∀ fuel buf, (quoteBytes bs).length ≤ fuel →
      unquoteCore fuel (quoteBytes bs) buf = utf8DecodeReplace (buf ++ bs) := by
  induction bs with
  | nil =>
    intro fuel buf _
    cases fuel <;> simp [quoteBytes, unquoteCore]
  | cons b bs ih =>
    intro fuel buf hfuel
    have hb0 : b < 256 := hb b (by simp)
    have hbs : ∀ x ∈ bs, x < 256 := fun x hx => hb x (by simp [hx])
    by_cases hs : alwaysSafe b = true
    · obtain ⟨hlt, _⟩ := alwaysSafe_lt hs
      have hq : quoteBytes (b :: bs) = Char.ofNat b :: quoteBytes bs := by
        simp [quoteBytes, hs]
      rw [hq] at hfuel ⊢
      obtain ⟨f, rfl⟩ : ∃ f, fuel = f + 1 := by
        cases fuel with
        | zero => simp at hfuel
        | succ f => exact ⟨f, rfl⟩
      have htn : (Char.ofNat b).toNat = b := char_toNat_ofNat_of_lt (by omega)
      have hne : ¬ (Char.ofNat b = '%') := by
        intro he
        have : (Char.ofNat b).toNat = 0x25 := by rw [he]; rfl
        omega
      rw [unquoteCore.eq_def]
      dsimp only
      rw [if_neg hne, htn, if_pos hlt,
        ih hbs f (buf ++ [b]) (by simpa using hfuel)]
      simp
    · have hq : quoteBytes (b :: bs) =
          '%' :: hexUpper (b / 16) :: hexUpper (b % 16) :: quoteBytes bs := by
        simp [quoteBytes, hs]
      rw [hq] at hfuel ⊢
      obtain ⟨f, rfl⟩ : ∃ f, fuel = f + 1 := by
        cases fuel with
        | zero => simp at hfuel
        | succ f => exact ⟨f, rfl⟩
      rw [unquoteCore.eq_def]
      dsimp only
      rw [if_pos rfl]
      have hd1 : isHexDigitCh (hexUpper (b / 16)) = true :=
        isHexDigitCh_hexUpper (by omega)
      have hd2 : isHexDigitCh (hexUpper (b % 16)) = true :=
        isHexDigitCh_hexUpper (by omega)
      have hcond : (isHexDigitCh (hexUpper (b / 16)) &&
          isHexDigitCh (hexUpper (b % 16))) = true := by
        rw [hd1, hd2]; rfl
      rw [if_pos hcond]
      rw [hexVal_hexUpper (k := b / 16) (by omega),
        hexVal_hexUpper (k := b % 16) (by omega)]
      have hbv : 16 * (b / 16) + b % 16 = b := by omega
      rw [hbv, ih hbs f (buf ++ [b]) (by simp at hfuel ⊢; omega)]
      simp

theorem utf8EncodeChar_lt {n : Nat} (h : n < 0x110000) :
    ∀ b ∈ utf8EncodeChar n, b < 256 := by
  intro b hb
  unfold utf8EncodeChar at hb
  split at hb
  · simp at hb; omega
  · split at hb
    · simp at hb; rcases hb with h | h <;> omega
    · split at hb
      · simp at hb; rcases hb with h | h | h <;> omega
      · simp at hb; rcases hb with h | h | h | h <;> omega

theorem utf8Encode_lt (cs : List Char) : ∀ b ∈ utf8Encode cs, b < 256 := by
  induction cs with
  | nil => simp [utf8Encode]
  | cons c cs ih =>
    intro b hb
    rw [utf8Encode, List.mem_append] at hb
    rcases hb with h | h
    · have hv := char_toNat_valid c
      exact utf8EncodeChar_lt (by omega) b h
    · exact ih b h

/-- C6 core: `unquote` inverts `quote(·, safe="")` on every string. -/
theorem pyUnquote_pyQuote (s : String) : pyUnquote (pyQuote s) = s := by
  show String.mk ((unquoteCore (quoteBytes (utf8Encode s.toList)).length
    (quoteBytes (utf8Encode s.toList)) []).map Char.ofNat) = s
  rw [unquoteCore_quoteBytes (utf8Encode s.toList) (utf8Encode_lt s.toList)
    (quoteBytes (utf8Encode s.toList)).length [] (le_refl _)]
  rw [List.nil_append, utf8DecodeReplace_utf8Encode, List.map_map]
  have : (Char.ofNat ∘ Char.toNat) = id := by
    funext c
    exact Char.ofNat_toNat c
  rw [this, List.map_id]
  cases s
  rfl

/-! ## Adapter (`ha_tts_adapter/tts.py`)

The provider issues at most one HTTP GET per call.  The transport is a
parameter mapping the requested URL to an outcome: a reply (status and body
bytes), a timeout, or any other transport failure (the exception classes
`aiohttp` / `requests` raise for network errors).  Each call variant returns
the Python pair `(format, data)` — with `None` encoded as `none` — together
with the list of URLs actually requested, so "no network call was made" is
the statement that this list is empty.  Both variants are total functions:
in the source every failure is caught and mapped to `(None, None)`, so no
exception propagates to the host application. -/

/-- Outcome of one HTTP GET attempt as seen by the adapter. -/
inductive HttpOutcome where
  | reply (status : Nat) (body : List Nat)
  | timedOut
  | transportError (msg : String)
deriving DecidableEq

/-- The three `PLATFORM_SCHEMA` keys: `base_url` (required string),
`timeout` (positive int, default 30), `format` (default "mp3"). -/
structure AdapterConfig where
  base_url : String
  timeout : Nat
  format : String
deriving DecidableEq

/-- `PLATFORM_SCHEMA` validation: `cv.positive_int` for the timeout and
`vol.In(["mp3"])` for the format. -/
def validConfig (c : AdapterConfig) : Bool :=
  0 < c.timeout && ["mp3"].contains c.format

/-- State of a constructed `HaTtsAdapterProvider`. -/
structure Provider where
  name : String
  lang : String
  supported_languages : List String
  base_url : String
  timeout : Nat
  format : String
deriving DecidableEq

/-- Python `s.rstrip("/")`: drop every trailing `/`. -/
def rstripSlash (s : String) : String :=
  String.mk (s.toList.reverse.dropWhile (fun c => c == '/')).reverse

/-- `HaTtsAdapterProvider.__init__`. -/
def mkProvider (config : AdapterConfig) : Provider :=
  { name := "ha_tts_adapter"
    lang := "ru"
    supported_languages := ["ru", "ru-ru", "en", "en-us"]
    base_url := rstripSlash config.base_url
    timeout := config.timeout
    format := config.format }

/-- The URL the adapter requests:
`f"{self._base_url}/synthesize/{quote(message, safe='')}"`. -/
def adapterUrl (p : Provider) (message : String) : String :=
  p.base_url ++ "/synthesize/" ++ pyQuote message

/-- `HaTtsAdapterProvider.async_get_tts_audio` (aiohttp variant).
`language` and `options` are received and immediately discarded
(`_ = language, options` in the source). -/
def async_get_tts_audio (p : Provider) (message : String)
    (language : Option String) (options : Option (List (String × String)))
    (transport : String → HttpOutcome) :
    (Option String × Option (List Nat)) × List String :=
  let _ := (language, options)
  if p.base_url = "" then ((none, none), [])
  else
    let url := adapterUrl p message
    match transport url with
    | .reply status body =>
      if status ≠ 200 then ((none, none), [url])
      else if body = [] then ((none, none), [url])
      else ((some p.format, some body), [url])
    | .timedOut => ((none, none), [url])
    | .transportError _ => ((none, none), [url])

/-- `HaTtsAdapterProvider.get_tts_audio` (blocking `requests` variant).
The source duplicates the async logic: missing base URL short-circuits,
then one GET; non-200 status and empty body map to `(None, None)`;
`requests.Timeout` and `requests.RequestException` are caught and also map
to `(None, None)`. -/
def get_tts_audio (p : Provider) (message : String)
    (language : Option String) (options : Option (List (String × String)))
    (transport : String → HttpOutcome) :
    (Option String × Option (List Nat)) × List String :=
  let _ := (language, options)
  if p.base_url = "" then ((none, none), [])
  else
    let url := adapterUrl p message
    match transport url with
    | .reply status body =>
      if status ≠ 200 then ((none, none), [url])
      else if body = [] then ((none, none), [url])
      else ((some p.format, some body), [url])
    | .timedOut => ((none, none), [url])
    | .transportError _ => ((none, none), [url])

/-- An outcome counts as a success for the adapter iff it is a 200 reply
with a non-empty body. -/
def isSuccessOutcome : HttpOutcome → Bool
  | .reply status body => status == 200 && !body.isEmpty
  | .timedOut => false
  | .transportError _ => false

/-! ## Synthesis endpoint (`tts_server.py`)

The handler `synthesize` is embedded as a total function over an
environment that fixes the behaviour of the effectful stages for one
request: the RUAccent call (`Except` result — `error` models a raised
exception), the TTS model call, `tts.save_wav`, the temporary wav path
handed out by `tempfile.NamedTemporaryFile`, the ffmpeg subprocess outcome,
and the bytes read back from the mp3 file.  The filesystem is a list of
existing paths threaded through the handler.  The result records the HTTP
status and body, the final filesystem, which pipeline stages ran, and the
text handed to the TTS model (if it was reached). -/

/-- Body of a Flask response: either a text message or raw audio bytes. -/
inductive HttpBody where
  | textBody (s : String)
  | bytesBody (b : List Nat)
deriving DecidableEq

/-- Outcome of `subprocess.run(cmd, check=True, capture_output=True)`:
normal zero exit, `CalledProcessError` (non-zero exit, with the captured
stderr), or another exception while launching (e.g. `FileNotFoundError`). -/
inductive FfmpegOutcome where
  | success
  | calledProcessError (returncode : Nat) (stderrStr : String)
  | execError (msg : String)
deriving DecidableEq

/-- Per-request behaviour of the endpoint's effectful dependencies. -/
structure ServerEnv where
  accent : String → Except String String
  ttsRun : String → Except String Nat
  saveWav : Nat → String → Except String Unit
  wavPath : String
  ffmpeg : FfmpegOutcome
  ffmpegFailCreatesMp3 : Bool
  mp3Bytes : List Nat

/-- `os.path.exists` over the modelled filesystem. -/
def fsExists (fs : List String) (p : String) : Bool := decide (p ∈ fs)

/-- `os.unlink` over the modelled filesystem. -/
def fsUnlink (fs : List String) (p : String) : List String :=
  fs.filter (fun q => decide (q ≠ p))

/-- `if os.path.exists(p): os.unlink(p)` — the cleanup step the handler's
`finally` block runs for each temporary file. -/
def tryUnlink (fs : List String) (p : String) : List String :=
  if fsExists fs p then fsUnlink fs p else fs

/-- `preprocess_text`: try `accentizer.process_all`; on any exception fall
back to the raw text. -/
def preprocess_text (env : ServerEnv) (raw_text : String) : String :=
  match env.accent raw_text with
  | .ok t => t
  | .error _ => raw_text

/-- Python `repr` of a string without quotes or escapes in it. -/
def pyStrRepr (s : String) : String := "'" ++ s ++ "'"

/-- Python `str` of a list of such strings. -/
def pyListRepr (xs : List String) : String :=
  "[" ++ String.intercalate ", " (xs.map pyStrRepr) ++ "]"

/-- `str(subprocess.CalledProcessError(returncode, cmd))` for a positive
exit status: the message names the command and the exit status — the
captured stderr is not part of it. -/
def calledProcessErrorStr (cmd : List String) (returncode : Nat) : String :=
  "Command " ++ pyStrRepr (pyListRepr cmd) ++
    " returned non-zero exit status " ++ toString returncode ++ "."

/-- Python `s.replace(pat, rep)` for a non-empty pattern: replace every
non-overlapping occurrence, scanning left to right.  The fuel is the input
length; each step consumes at least one character. -/
def pyReplaceAux (pat rep : List Char) : Nat → List Char → List Char
  | 0, l => l
  | _ + 1, [] => []
  | fuel + 1, c :: rest =>
    if pat.isPrefixOf (c :: rest) then
      rep ++ pyReplaceAux pat rep fuel (rest.drop (pat.length - 1))
    else c :: pyReplaceAux pat rep fuel rest

/-- Python `s.replace(pat, rep)` (used by the handler as
`wav_path.replace('.wav', '.mp3')`, a non-empty pattern). -/
def pyReplace (s pat rep : String) : String :=
  String.mk (pyReplaceAux pat.toList rep.toList s.toList.length s.toList)

/-- The transcoder command line the handler builds. -/
def ffmpegCmd (wav_path mp3_path : String) : List String :=
  ["ffmpeg", "-y", "-i", wav_path, "-codec:a", "libmp3lame", "-q:a", "2",
    mp3_path]

/-- Result of one request to the endpoint. -/
structure RunResult where
  status : Nat
  body : HttpBody
  fs : List String
  stages : List String
  ttsInput : Option String
deriving DecidableEq

/-- The Flask handler `synthesize`.  `raw` is the percent-encoded path
fragment after `/synthesize/`; both the route converter's `text` parameter
and the handler's own `line = urllib.parse.unquote(request.url[...])` are
percent-decodings of that fragment. -/
def synthesize (env : ServerEnv) (fs0 : List String) (raw : String) :
    RunResult :=
  let text := pyUnquote raw
  if text = "" then ⟨400, .textBody "No input", fs0, [], none⟩
  else
    let line := pyUnquote raw
    let processed0 := preprocess_text env line
    let processed_text :=
      if processed0 = "Не шм+огла" then "Не шмогл+а" else processed0
    match env.ttsRun processed_text with
    | .error e =>
      ⟨500, .textBody ("TTS synthesis error: " ++ e), fs0,
        ["accent", "tts"], some processed_text⟩
    | .ok audio =>
      let wav_path := env.wavPath
      let fs1 := wav_path :: fs0
      match env.saveWav audio wav_path with
      | .error _ =>
        let fs2 := tryUnlink fs1 wav_path
        ⟨500, .textBody "TTS synthesis error: name 'mp3_path' is not defined",
          fs2, ["accent", "tts", "save_wav"], some processed_text⟩
      | .ok _ =>
        let mp3_path := pyReplace wav_path ".wav" ".mp3"
        match env.ffmpeg with
        | .calledProcessError returncode _ =>
          let fs2 := if env.ffmpegFailCreatesMp3 then mp3_path :: fs1 else fs1
          let fs4 := tryUnlink (tryUnlink fs2 wav_path) mp3_path
          ⟨500, .textBody ("FFmpeg conversion error: " ++
              calledProcessErrorStr (ffmpegCmd wav_path mp3_path) returncode),
            fs4, ["accent", "tts", "save_wav", "ffmpeg"], some processed_text⟩
        | .execError msg =>
          let fs4 := tryUnlink (tryUnlink fs1 wav_path) mp3_path
          ⟨500, .textBody ("TTS synthesis error: " ++ msg),
            fs4, ["accent", "tts", "save_wav", "ffmpeg"], some processed_text⟩
        | .success =>
          let fs2 := mp3_path :: fs1
          let fs4 := tryUnlink (tryUnlink fs2 wav_path) mp3_path
          ⟨200, .bytesBody env.mp3Bytes, fs4,
            ["accent", "tts", "save_wav", "ffmpeg"], some processed_text⟩

/-! ## Filesystem lemmas -/

theorem fsExists_tryUnlink_self (fs : List String) (p : String) :
    fsExists (tryUnlink fs p) p = false := by
  unfold tryUnlink
  split
  · simp [fsExists, fsUnlink, List.mem_filter]
  · next h => simpa using h

theorem fsExists_tryUnlink_of_false {fs : List String} {q : String}
    (p : String) (h : fsExists fs q = false) :
    fsExists (tryUnlink fs p) q = false := by
  unfold tryUnlink
  split
  · simp only [fsExists, fsUnlink, List.mem_filter, decide_eq_false_iff_not]
      at h ⊢
    intro hq
    exact absurd hq.1 h
  · exact h

/-! ## Claim theorems -/

/-- C2: a request to `/synthesize/` with an empty path fragment is answered
with status 400 and body "No input" at once: no pipeline stage runs, the
filesystem is untouched, and the TTS model is never consulted. -/
theorem empty_fragment_yields_400_no_pipeline (env : ServerEnv)
    (fs0 : List String) :
    synthesize env fs0 "" = ⟨400, .textBody "No input", fs0, [], none⟩ := rfl

/-- C6: percent-encoding a text with `quote(·, safe="")` (as the adapter
does) and percent-decoding it with `unquote` (as the endpoint does) gives
back the original text, for every non-empty text. -/
theorem quote_unquote_roundtrip (s : String) (_h : s ≠ "") :
    pyUnquote (pyQuote s) = s := pyUnquote_pyQuote s

theorem quote_unquote_roundtrip_witness :
    "Привет, мир! 100%" ≠ "" ∧
      pyUnquote (pyQuote "Привет, мир! 100%") = "Привет, мир! 100%" :=
  ⟨by decide, quote_unquote_roundtrip "Привет, мир! 100%" (by decide)⟩

/-- C7: the blocking and the asynchronous adapter variant produce identical
results — same `(format, bytes)` or `(None, None)` pair and same issued
requests — for every provider state, message, ignored parameters, and
transport behaviour. -/
theorem sync_async_variants_agree (p : Provider) (message : String)
    (language : Option String) (options : Option (List (String × String)))
    (transport : String → HttpOutcome) :
    async_get_tts_audio p message language options transport =
      get_tts_audio p message language options transport := rfl

/-- C8: with no configured base URL the adapter (either variant) returns
`(None, None)` and the list of issued requests is empty — the transport is
never invoked. -/
theorem no_base_url_returns_none_without_request (p : Provider)
    (message : String) (language : Option String)
    (options : Option (List (String × String)))
    (transport : String → HttpOutcome) (hb : p.base_url = "") :
    async_get_tts_audio p message language options transport
        = ((none, none), []) ∧
      get_tts_audio p message language options transport
        = ((none, none), []) := by
  unfold async_get_tts_audio get_tts_audio
  simp [hb]

theorem no_base_url_returns_none_without_request_witness :
    async_get_tts_audio ⟨"ha_tts_adapter", "ru", ["ru"], "", 30, "mp3"⟩
        "hello" none none (fun _ => .reply 200 [1]) = ((none, none), []) ∧
      get_tts_audio ⟨"ha_tts_adapter", "ru", ["ru"], "", 30, "mp3"⟩
        "hello" none none (fun _ => .reply 200 [1]) = ((none, none), []) :=
  no_base_url_returns_none_without_request _ "hello" none none _ rfl

/-- C10: the adapter's result does not depend on the `language` and
`options` parameters: two runs differing only in those parameters return
identical results, for both call variants. -/
theorem language_options_noninterference (p : Provider) (message : String)
    (transport : String → HttpOutcome) (l1 l2 : Option String)
    (o1 o2 : Option (List (String × String))) :
    async_get_tts_audio p message l1 o1 transport =
        async_get_tts_audio p message l2 o2 transport ∧
      get_tts_audio p message l1 o1 transport =
        get_tts_audio p message l2 o2 transport := ⟨rfl, rfl⟩

/-- C1: with a validated configuration (which pins the format to "mp3") and
a configured base URL, a 200 reply with a non-empty body makes both adapter
variants return exactly `(configured format, body bytes)` =
`(some "mp3", some body)`. -/
theorem adapter_success_returns_format_and_bytes (c : AdapterConfig)
    (hvalid : validConfig c = true) (message : String)
    (language : Option String) (options : Option (List (String × String)))
    (transport : String → HttpOutcome)
    (hbase : (mkProvider c).base_url ≠ "") (body : List Nat)
    (hresp : transport (adapterUrl (mkProvider c) message) = .reply 200 body)
    (hbody : body ≠ []) :
    (async_get_tts_audio (mkProvider c) message language options transport).1
        = (some "mp3", some body) ∧
      (get_tts_audio (mkProvider c) message language options transport).1
        = (some "mp3", some body) := by
  have hfmt : (mkProvider c).format = "mp3" := by
    simp [validConfig, List.contains] at hvalid
    simpa [mkProvider] using hvalid.2
  constructor <;>
    simp [async_get_tts_audio, get_tts_audio, hbase, hresp, hbody, hfmt]

theorem adapter_success_returns_format_and_bytes_witness :
    (async_get_tts_audio (mkProvider ⟨"http://localhost:8124/", 30, "mp3"⟩)
        "hi" none none (fun _ => .reply 200 [1, 2, 3])).1
        = (some "mp3", some [1, 2, 3]) ∧
      (get_tts_audio (mkProvider ⟨"http://localhost:8124/", 30, "mp3"⟩)
        "hi" none none (fun _ => .reply 200 [1, 2, 3])).1
        = (some "mp3", some [1, 2, 3]) :=
  adapter_success_returns_format_and_bytes ⟨"http://localhost:8124/", 30, "mp3"⟩
    (by decide) "hi" none none (fun _ => .reply 200 [1, 2, 3]) (by decide)
    [1, 2, 3] rfl (by decide)

/-- C3: every non-success transport outcome — non-200 status, 200 with an
empty body, a timeout, or any other transport failure — makes both adapter
variants return `(None, None)`; being total Lean functions, the embedded
variants raise nothing to the caller on any outcome. -/
theorem adapter_failure_returns_none (p : Provider) (message : String)
    (language : Option String) (options : Option (List (String × String)))
    (transport : String → HttpOutcome)
    (hfail : isSuccessOutcome (transport (adapterUrl p message)) = false) :
    (async_get_tts_audio p message language options transport).1
        = (none, none) ∧
      (get_tts_audio p message language options transport).1
        = (none, none) := by
  unfold async_get_tts_audio get_tts_audio
  by_cases hb : p.base_url = ""
  · simp [hb]
  · cases h : transport (adapterUrl p message) with
    | reply status body =>
      rw [h] at hfail
      simp only [isSuccessOutcome] at hfail
      by_cases hst : status = 200
      · have hbody : body = [] := by
          subst hst
          simpa using hfail
        simp [hb, h, hst, hbody]
      · simp [hb, h, hst]
    | timedOut => simp [hb, h]
    | transportError msg => simp [hb, h]

theorem adapter_failure_returns_none_witness :
    isSuccessOutcome ((fun _ => HttpOutcome.timedOut)
        (adapterUrl ⟨"ha_tts_adapter", "ru", ["ru"], "http://h", 30, "mp3"⟩
          "hi")) = false ∧
      ((async_get_tts_audio ⟨"ha_tts_adapter", "ru", ["ru"], "http://h", 30,
          "mp3"⟩ "hi" none none (fun _ => HttpOutcome.timedOut)).1
          = (none, none) ∧
        (get_tts_audio ⟨"ha_tts_adapter", "ru", ["ru"], "http://h", 30,
          "mp3"⟩ "hi" none none (fun _ => HttpOutcome.timedOut)).1
          = (none, none)) :=
  ⟨rfl, adapter_failure_returns_none _ "hi" none none
    (fun _ => HttpOutcome.timedOut) rfl⟩

/-- Substring test helper: does `pat` occur inside the list. -/
def strContainsAux (pat : List Char) : List Char → Bool
  | [] => pat.isEmpty
  | c :: rest => pat.isPrefixOf (c :: rest) || strContainsAux pat rest

/-- Does the string `pat` occur inside `s`. -/
def strContains (s pat : String) : Bool := strContainsAux pat.toList s.toList

/-- Text payload of a response body (empty for a byte payload). -/
def HttpBody.asText : HttpBody → String
  | .textBody s => s
  | .bytesBody _ => ""

/-- Environment of a request whose ffmpeg run exits non-zero (status 1,
captured stderr "boom"); every other stage succeeds. -/
def envFfmpegFails : ServerEnv :=
  { accent := fun s => .ok s
    ttsRun := fun _ => .ok 0
    saveWav := fun _ _ => .ok ()
    wavPath := "/tmp/tmpa1b2c3.wav"
    ffmpeg := .calledProcessError 1 "boom"
    ffmpegFailCreatesMp3 := false
    mp3Bytes := [] }

/-- Environment of a request whose accent transform raises; every later
stage succeeds. -/
def envAccentRaises : ServerEnv :=
  { accent := fun _ => .error "accent failure"
    ttsRun := fun _ => .ok 0
    saveWav := fun _ _ => .ok ()
    wavPath := "/tmp/tmpa1b2c3.wav"
    ffmpeg := .success
    ffmpegFailCreatesMp3 := false
    mp3Bytes := [7, 8, 9] }

/-- C4: in every execution that reaches the temporary-file stage (non-empty
decoded text, model call succeeded), neither the wav nor the mp3 temporary
file exists when the handler returns — on the success path, on the
non-zero-transcoder-exit 500 path, on the transcoder-launch-failure path,
and on the save-failure path — given that the mp3 path derived from the
fresh unique temporary name did not pre-exist. -/
theorem temp_files_deleted_on_every_exit (env : ServerEnv)
    (fs0 : List String) (raw : String) (a : Nat)
    (hne : pyUnquote raw ≠ "")
    (htts : env.ttsRun (if preprocess_text env (pyUnquote raw) = "Не шм+огла"
        then "Не шмогл+а" else preprocess_text env (pyUnquote raw)) = .ok a)
    (hmp3 : fsExists fs0 (pyReplace env.wavPath ".wav" ".mp3") = false) :
    fsExists (synthesize env fs0 raw).fs env.wavPath = false ∧
      fsExists (synthesize env fs0 raw).fs
        (pyReplace env.wavPath ".wav" ".mp3") = false := by
  unfold synthesize
  rw [if_neg hne]
  dsimp only
  rw [htts]
  dsimp only
  have hsplit : (∃ e, env.saveWav a env.wavPath = .error e) ∨
      ∃ u, env.saveWav a env.wavPath = .ok u := by
    cases env.saveWav a env.wavPath
    · exact Or.inl ⟨_, rfl⟩
    · exact Or.inr ⟨_, rfl⟩
  rcases hsplit with ⟨err, hsw⟩ | ⟨u, hsw⟩
  · rw [hsw]
    dsimp only
    constructor
    · exact fsExists_tryUnlink_self _ _
    · by_cases hqm : pyReplace env.wavPath ".wav" ".mp3" = env.wavPath
      · rw [hqm]
        exact fsExists_tryUnlink_self _ _
      · apply fsExists_tryUnlink_of_false
        simp only [fsExists, decide_eq_false_iff_not, List.mem_cons] at hmp3 ⊢
        rintro (h | h)
        · exact hqm h
        · exact hmp3 h
  · have hffsplit : (∃ rc st, env.ffmpeg = .calledProcessError rc st) ∨
        (∃ m, env.ffmpeg = .execError m) ∨ env.ffmpeg = .success := by
      cases env.ffmpeg
      · exact Or.inr (Or.inr rfl)
      · exact Or.inl ⟨_, _, rfl⟩
      · exact Or.inr (Or.inl ⟨_, rfl⟩)
    rw [hsw]
    dsimp only
    rcases hffsplit with ⟨rc, st, hff⟩ | ⟨m, hff⟩ | hff <;> rw [hff] <;>
      dsimp only <;>
      exact ⟨fsExists_tryUnlink_of_false _ (fsExists_tryUnlink_self _ _),
        fsExists_tryUnlink_self _ _⟩

theorem temp_files_deleted_on_every_exit_witness :
    pyUnquote "hello" ≠ "" ∧
      (fsExists (synthesize envFfmpegFails [] "hello").fs
          envFfmpegFails.wavPath = false ∧
        fsExists (synthesize envFfmpegFails [] "hello").fs
          (pyReplace envFfmpegFails.wavPath ".wav" ".mp3") = false) :=
  ⟨by decide, temp_files_deleted_on_every_exit envFfmpegFails [] "hello" 0
    (by decide) rfl rfl⟩

/-- C5 counterexample: the transcoder exits with status 1 and captured
stderr "boom", the handler answers 500, but the message does not contain
the captured error output — `str(CalledProcessError)` only names the
command and the exit status. -/
theorem ffmpeg_stderr_not_embedded_counterexample :
    envFfmpegFails.ffmpeg = .calledProcessError 1 "boom" ∧
      (synthesize envFfmpegFails [] "hello").status = 500 ∧
      strContains (synthesize envFfmpegFails [] "hello").body.asText "boom"
        = false := by
  refine ⟨rfl, by decide, by decide⟩

/-- C5 (amended): when the transcoder subprocess exits non-zero, the
endpoint returns status 500 with a message that embeds the transcoder
command line and the non-zero exit status (the `str` of the raised
`CalledProcessError`) — not the captured stderr. -/
theorem ffmpeg_error_embeds_command_and_status (env : ServerEnv)
    (fs0 : List String) (raw : String) (a : Nat) (rc : Nat) (errout : String)
    (hne : pyUnquote raw ≠ "")
    (htts : env.ttsRun (if preprocess_text env (pyUnquote raw) = "Не шм+огла"
        then "Не шмогл+а" else preprocess_text env (pyUnquote raw)) = .ok a)
    (hsave : env.saveWav a env.wavPath = .ok ())
    (hff : env.ffmpeg = .calledProcessError rc errout) :
    (synthesize env fs0 raw).status = 500 ∧
      (synthesize env fs0 raw).body = .textBody ("FFmpeg conversion error: "
        ++ calledProcessErrorStr
          (ffmpegCmd env.wavPath (pyReplace env.wavPath ".wav" ".mp3")) rc) := by
  unfold synthesize
  rw [if_neg hne]
  dsimp only
  rw [htts]
  dsimp only
  rw [hsave]
  dsimp only
  rw [hff]
  dsimp only
  exact ⟨rfl, rfl⟩

theorem ffmpeg_error_embeds_command_and_status_witness :
    (synthesize envFfmpegFails [] "hello").status = 500 ∧
      (synthesize envFfmpegFails [] "hello").body =
        .textBody ("FFmpeg conversion error: " ++ calledProcessErrorStr
          (ffmpegCmd envFfmpegFails.wavPath
            (pyReplace envFfmpegFails.wavPath ".wav" ".mp3")) 1) :=
  ffmpeg_error_embeds_command_and_status envFfmpegFails [] "hello" 0 1 "boom"
    (by decide) rfl rfl rfl

/-- C9 counterexample: a request whose accent transform raises and whose
decoded text is exactly the special-cased phrase "Не шм+огла" proceeds
with the patched phrase "Не шмогл+а", not with the undecorated decoded
text (synthesis and transcoding succeed and the response is still 200). -/
theorem accent_fallback_not_undecorated_counterexample :
    envAccentRaises.accent (pyUnquote "Не шм+огла") = .error "accent failure" ∧
      (synthesize envAccentRaises [] "Не шм+огла").status = 200 ∧
      (synthesize envAccentRaises [] "Не шм+огла").ttsInput
        = some "Не шмогл+а" ∧
      pyUnquote "Не шм+огла" ≠ "Не шмогл+а" := by
  refine ⟨rfl, by decide, by decide, by decide⟩

/-- C9 (amended): when the accent transform raises and the decoded text is
not the special-cased phrase "Не шм+огла", the pipeline proceeds with the
undecorated decoded text, and the request still answers 200 when synthesis
and transcoding succeed. -/
theorem accent_error_falls_back_to_raw_text (env : ServerEnv)
    (fs0 : List String) (raw : String) (e : String) (a : Nat)
    (hne : pyUnquote raw ≠ "")
    (hacc : env.accent (pyUnquote raw) = .error e)
    (hspecial : pyUnquote raw ≠ "Не шм+огла")
    (htts : env.ttsRun (pyUnquote raw) = .ok a)
    (hsave : env.saveWav a env.wavPath = .ok ())
    (hff : env.ffmpeg = .success) :
    (synthesize env fs0 raw).status = 200 ∧
      (synthesize env fs0 raw).ttsInput = some (pyUnquote raw) := by
  have hpre : preprocess_text env (pyUnquote raw) = pyUnquote raw := by
    unfold preprocess_text
    rw [hacc]
  unfold synthesize
  rw [if_neg hne]
  dsimp only
  rw [hpre, if_neg hspecial, htts]
  dsimp only
  rw [hsave]
  dsimp only
  rw [hff]
  dsimp only
  exact ⟨rfl, rfl⟩

theorem accent_error_falls_back_to_raw_text_witness :
    (synthesize envAccentRaises [] "hello").status = 200 ∧
      (synthesize envAccentRaises [] "hello").ttsInput
        = some (pyUnquote "hello") :=
  accent_error_falls_back_to_raw_text envAccentRaises [] "hello"
    "accent failure" 0 (by decide) rfl (by decide) rfl rfl rfl
